import Mathlib

/-!
Verification of the toolbox dispatch engine (`src/core/dispatch.py`,
`src/core/registry.py`), its adapter generators
(`src/adapters/openai/toolgen.py`, `src/adapters/mcp/server.py`) and the
`text.normalize_markdown` capability
(`src/capabilities/text_normalize_markdown/implementation.py`).

The Python code is shallowly embedded: JSON values become an inductive
`Json` type, raised exceptions become an explicit `Out` result type
(`Out.exn` models faults derived from Python's `Exception`; process-control
`BaseException`s such as `KeyboardInterrupt` are outside the model), and
everything the dispatcher obtains from the outside world — the contract
files on disk, the third-party `jsonschema` library, the registered
implementations — is passed in explicitly as an environment.
-/

namespace Toolbox

/-- JSON values, as produced by `json.load`.  Object fields are kept in
insertion order; documents produced by `json.load` have unique keys. -/
inductive Json where
  | null
  | bool (b : Bool)
  | num (n : Int)
  | str (s : String)
  | arr (elems : List Json)
  | obj (fields : List (String × Json))
deriving Repr

/-- Python truthiness (`bool(x)`) of a JSON value: `None`, `False`, `0`,
`""`, `[]` and `{}` are falsy. -/
def Json.truthy : Json → Bool
  | .null => false
  | .bool b => b
  | .num n => n != 0
  | .str s => s ≠ ""
  | .arr xs => !xs.isEmpty
  | .obj fs => !fs.isEmpty

/-- Assoc-list lookup, first match (keys are unique in loaded documents). -/
def lookupField (fs : List (String × Json)) (k : String) : Option Json :=
  match fs with
  | [] => none
  | (k', v) :: rest => if k' = k then some v else lookupField rest k

/-- `d.get(k)` on a JSON object (`None` when absent); only called on
values statically known to be objects. -/
def Json.get? (j : Json) (k : String) : Option Json :=
  match j with
  | .obj fs => lookupField fs k
  | _ => none

/-- Truthiness of a `dict.get` result: `None` (absent) is falsy. -/
def optTruthy : Option Json → Bool
  | none => false
  | some j => j.truthy

/-- Whether key `k` is present in a JSON object. -/
def Json.hasKey (j : Json) (k : String) : Bool :=
  match j with
  | .obj fs => fs.any (fun kv => kv.1 = k)
  | _ => false

/-! ### jsonschema validation errors

A `jsonschema.ValidationError` as used by `_format_validation_error`:
its `message`, `path` (deque of property names / array indices) and
`schema_path`. -/

/-- One element of a `ValidationError` path: a property name or an array
index. -/
inductive Key where
  | idx (n : Nat)
  | str (s : String)
deriving Repr, DecidableEq

/-- A validation error produced by `validator.iter_errors`. -/
structure VError where
  message : String
  path : List Key
  schema_path : List Key
deriving Repr, DecidableEq

/-- Comparison of path elements, as Python's `<`.  Indices compare
numerically and names lexicographically; in any one instance all sibling
keys of a container have the same kind (a list has integer keys, a dict
string keys), so the mixed cases never arise when sorting the paths of
one `iter_errors` call — they are totalized as `idx < str`. -/
def Key.lt : Key → Key → Bool
  | .idx m, .idx n => decide (m < n)
  | .idx _, .str _ => true
  | .str _, .idx _ => false
  | .str a, .str b => decide (a < b)

/-- Python list comparison `list(a) < list(b)`: lexicographic, a strict
prefix is smaller. -/
def pathLt : List Key → List Key → Bool
  | [], [] => false
  | [], _ :: _ => true
  | _ :: _, [] => false
  | a :: as, b :: bs => Key.lt a b || (a = b && pathLt as bs)

/-- Comparison of two errors by `list(e.path)`, the sort key used in
`_validate`. -/
def errLt (a b : VError) : Bool := pathLt a.path b.path

/-- Stable insertion of `x` after every element not greater than it —
the placement Python's stable `sorted` gives a later element. -/
def insertByLt {α : Type} (lt : α → α → Bool) (x : α) : List α → List α
  | [] => [x]
  | y :: ys => if lt x y then x :: y :: ys else y :: insertByLt lt x ys

/-- Left fold of stable insertion: `sortAux lt acc l` sorts `acc ++ l`
when `acc` is sorted. -/
def sortAux {α : Type} (lt : α → α → Bool) : List α → List α → List α
  | acc, [] => acc
  | acc, x :: xs => sortAux lt (insertByLt lt x acc) xs

/-- `sorted(errors, key=lambda e: list(e.path))` from `_validate`. -/
def sortByPath (errs : List VError) : List VError := sortAux errLt [] errs

/-- `_format_validation_error`: reduce an error to
`{message, path, schema_path}`. -/
def _format_validation_error (e : VError) : Json :=
  .obj [("message", .str e.message),
        ("path", .arr (e.path.map fun k => match k with
          | .idx n => .num n
          | .str s => .str s)),
        ("schema_path", .arr (e.schema_path.map fun k => match k with
          | .idx n => .num n
          | .str s => .str s))]

/-! ### The dispatcher's environment -/

/-- Result of a Python computation: a value, a raised `DispatchError`
(carrying `code`, `message`, `details`; `details` is `Json.null` for
`None`), or any other raised `Exception` (carrying `str(exc)`). -/
inductive Out (α : Type) where
  | val (a : α)
  | derr (code message : String) (details : Json)
  | exn (message : String)
deriving Repr

/-- Outcome of `_load_contract`: the file `<id>.v1.json` is absent
(`DispatchError("contract_not_found", ...)` is raised), `json.load`
raises (a plain exception), or a document is returned. -/
inductive LoadResult where
  | missing
  | malformed (message : String)
  | doc (contract : Json)
deriving Repr

/-- The `jsonschema` library, abstracted: `checkSchema s = some m` means
`validators.validator_for(s)` / `check_schema(s)` / the validator
constructor raises with message `m`; `iterErrors s x` is the list of
violations `validator.iter_errors(x)` yields, in iteration order. -/
structure SchemaLib where
  checkSchema : Json → Option String
  iterErrors : Json → Json → List VError

/-- Everything `dispatch` reads from outside: the `jsonschema` library,
the key set of `REGISTRY`, the registered callables (`REGISTRY[id]`
invoked with the payload splatted as keyword arguments), and the
contract files on disk read by `_load_contract`. -/
structure Env where
  lib : SchemaLib
  registry : List String
  impl : String → List (String × Json) → Out Json
  loadContract : String → LoadResult

/-- `_validate(schema, payload, error_code)`: any fault while building
the validator propagates as a plain exception; otherwise the violations
are sorted by path and, if any, raised as a `DispatchError` with message
"schema validation failed" and the reduced violations as details. -/
def _validate (lib : SchemaLib) (schema payload : Json) (errorCode : String) :
    Out Unit :=
  match lib.checkSchema schema with
  | some m => .exn m
  | none =>
    let errs := sortByPath (lib.iterErrors schema payload)
    if errs.isEmpty then .val ()
    else .derr errorCode "schema validation failed"
      (.arr (errs.map _format_validation_error))

/-- `REGISTRY[capability_id](**payload)`: splatting a non-mapping raises
a `TypeError`. -/
def invokeImpl (env : Env) (id : String) (payload : Json) : Out Json :=
  match payload with
  | .obj fields => env.impl id fields
  | _ => .exn "argument after ** must be a mapping"

/-- The body of `dispatch`'s `try` block, lines 62–72 of
`src/core/dispatch.py`.  `contract.get(...)` on a non-object document
raises an `AttributeError`. -/
def dispatchBody (env : Env) (id : String) (payload : Json) : Out Json :=
  match env.loadContract id with
  | .missing => .derr "contract_not_found" ("contract not found: " ++ id ++ ".v1.json") .null
  | .malformed m => .exn m
  | .doc contract =>
    match contract with
    | .obj fields =>
      let inputSchema := lookupField fields "input_schema"
      let outputSchema := lookupField fields "output_schema"
      if !optTruthy inputSchema || !optTruthy outputSchema then
        .derr "contract_invalid" "contract missing input/output schema" .null
      else
        match inputSchema with
        | some ischema =>
          match _validate env.lib ischema payload "validation_error" with
          | .derr c m d => .derr c m d
          | .exn m => .exn m
          | .val () =>
            match invokeImpl env id payload with
            | .derr c m d => .derr c m d
            | .exn m => .exn m
            | .val result =>
              match outputSchema with
              | some oschema =>
                match _validate env.lib oschema result "output_validation_error" with
                | .derr c m d => .derr c m d
                | .exn m => .exn m
                | .val () => .val result
              | none => .exn "unreachable: output schema was truthy"
        | none => .exn "unreachable: input schema was truthy"
    | _ => .exn "AttributeError: object has no attribute get"

/-- `dispatch(capability_id, payload)` from `src/core/dispatch.py`:
unknown ids short-circuit; the `try` body's `DispatchError`s and other
exceptions are converted to error envelopes. -/
def dispatch (env : Env) (id : String) (payload : Json) : Json :=
  if id ∈ env.registry then
    match dispatchBody env id payload with
    | .val result => .obj [("ok", .bool true), ("result", result)]
    | .derr code message details =>
      .obj [("ok", .bool false),
            ("error", .obj [("type", .str code), ("message", .str message),
                            ("details", details)])]
    | .exn message =>
      .obj [("ok", .bool false),
            ("error", .obj [("type", .str "capability_error"),
                            ("message", .str message)])]
  else
    .obj [("ok", .bool false),
          ("error", .obj [("type", .str "capability_not_found"),
                          ("message", .str ("unknown capability: " ++ id))])]

/-! ### OpenAI tool generation (`src/adapters/openai/toolgen.py`) -/

/-- `_strip_schema`: copy the schema dict and `pop("$schema", None)`.
Loaded documents have unique keys, so a filter is the same removal. -/
def _strip_schema (fields : List (String × Json)) : List (String × Json) :=
  fields.filter (fun kv => kv.1 ≠ "$schema")

/-- `generate_tool(contract)`: build the OpenAI function descriptor.
`contract["name"]` raises on a missing key; `dict(schema)` raises when
`input_schema` is present but not an object. -/
def generate_tool (contract : Json) : Out Json :=
  match contract with
  | .obj fields =>
    match lookupField fields "name" with
    | none => .exn "KeyError: name"
    | some name =>
      let description := (lookupField fields "description").getD (.str "")
      match (lookupField fields "input_schema").getD (.obj []) with
      | .obj sfields =>
        .val (.obj [("type", .str "function"),
                    ("function", .obj [("name", name),
                                       ("description", description),
                                       ("parameters", .obj (_strip_schema sfields))])])
      | _ => .exn "TypeError: cannot convert to dict"
  | _ => .exn "TypeError: contract is not a dict"

/-! ### MCP server (`src/adapters/mcp/server.py`) -/

/-- Stable sort of strings, as `sorted` on `contracts.keys()`. -/
def sortedStrings (l : List String) : List String :=
  sortAux (fun a b => decide (a < b)) [] l

/-- The MCP adapter's `_validate`: same validator construction and
sorting as the dispatcher's, but it returns the reduced violation list
instead of raising. A fault while building the validator propagates. -/
def mcpValidate (lib : SchemaLib) (schema payload : Json) :
    Except String (List Json) :=
  match lib.checkSchema schema with
  | some m => .error m
  | none => .ok ((sortByPath (lib.iterErrors schema payload)).map
      _format_validation_error)

/-- `call_tool(name, arguments)` from `src/adapters/mcp/server.py`.
`contracts` is the module-level map built by `_load_contracts` (contract
documents keyed by their `name` field, all objects); `env` is the
dispatcher's environment, sharing the same `jsonschema` library.
`Except.error` models an exception escaping `call_tool` into the MCP
framework (the function has no catch of its own). -/
def call_tool (contracts : List (String × Json)) (env : Env)
    (name : String) (arguments : Json) : Except String Json :=
  if name = "toolbox.list_capabilities" then
    .ok (.obj [("ok", .bool true),
               ("result", .arr ((sortedStrings (contracts.map Prod.fst)).map .str))])
  else
    let contract? := lookupField contracts name
    if !optTruthy contract? then
      .ok (.obj [("ok", .bool false),
                 ("error", .obj [("type", .str "capability_not_found"),
                                 ("message", .str ("unknown capability: " ++ name))])])
    else
      match contract? with
      | some (.obj cfields) =>
        let schema := (lookupField cfields "input_schema").getD (.obj [])
        match mcpValidate env.lib schema arguments with
        | .error m => .error m
        | .ok [] => .ok (dispatch env name arguments)
        | .ok errs =>
          .ok (.obj [("ok", .bool false),
                     ("error", .obj [("type", .str "validation_error"),
                                     ("message", .str "schema validation failed"),
                                     ("details", .arr errs)])])
      | some _ => .error "AttributeError: object has no attribute get"
      | none => .error "unreachable: contract was truthy"

/-! ### Registry discovery (`src/core/registry.py`) -/

/-- Python `==` between values usable as dict keys.  `bool` is an `int`
subclass, so `True == 1` and `False == 0`. -/
def pyEq (a b : Json) : Bool :=
  match a, b with
  | .bool x, .bool y => x == y
  | .bool x, .num n => (if x then (1 : Int) else 0) == n
  | .num n, .bool y => n == (if y then (1 : Int) else 0)
  | .num m, .num n => m == n
  | .null, .null => true
  | .str s, .str t => s == t
  | _, _ => false

/-- Whether a JSON value is hashable as a Python dict key (lists and
dicts are not; assigning with one raises `TypeError`). -/
def Json.hashable : Json → Bool
  | .arr _ => false
  | .obj _ => false
  | _ => true

/-- `m[k] = v` on a dict represented as an assoc list: overwrite in
place (keeping the originally stored key, as Python does), else append. -/
def dictSet {α : Type} (m : List (Json × α)) (k : Json) (v : α) :
    List (Json × α) :=
  match m with
  | [] => [(k, v)]
  | (k', v') :: rest =>
    if pyEq k' k then (k', v) :: rest else (k', v') :: dictSet rest k v

/-- Outcome of `importlib.import_module(f"capabilities.{child.name}")`
followed by the two `getattr(..., None)` reads.  The entry-point
attributes are declared as strings in the plugins; `none` models an
absent attribute (`getattr` default `None`). -/
inductive ImportOutcome where
  | fail (message : String)
  | ok (epModule epAttr : Option String)

/-- One child of `capabilities/` as `_discover` observes it: its
directory name, whether it is a directory, whether `contract.v1.json`
and `__init__.py` exist, the outcome of `json.load` on the contract, and
the outcome of importing the plugin package. -/
structure PluginDir where
  dirName : String
  isDir : Bool
  hasContract : Bool
  hasInit : Bool
  contractDoc : Except String Json
  importOutcome : ImportOutcome

/-- The registry binds an id to the deferred `(module, attr)` pair that
`_make_lazy` closes over. -/
abbrev LazyRef := String × String

/-- The `registry`/`contracts` pair under construction. -/
abbrev Maps := List (Json × LazyRef) × List (Json × Json)

/-- Discovery state: the two maps under construction plus, as
instrumentation, the names passed to `importlib.import_module` so far
(in call order, attempts that raised included). -/
structure DiscoverState where
  registry : List (Json × LazyRef)
  contracts : List (Json × Json)
  importLog : List String

/-- One iteration of `_discover`'s loop over `sorted(iterdir())`,
returning the updated maps and the `importlib.import_module` calls the
iteration performed.  `Except.error` models an exception propagating out
of `_discover` (there is no try/except around `json.load`,
`contract.get` or the map assignments). -/
def discoverStep (maps : Maps) (p : PluginDir) :
    Except String (Maps × List String) :=
  if !p.isDir then .ok (maps, [])
  else if !(p.hasContract && p.hasInit) then .ok (maps, [])
  else
    match p.contractDoc with
    | .error m => .error m
    | .ok contract =>
      match contract with
      | .obj cfields =>
        match lookupField cfields "name" with
        | none => .ok (maps, [])
        | some cid =>
          if !cid.truthy then .ok (maps, [])
          else
            let moduleName := "capabilities." ++ p.dirName
            match p.importOutcome with
            | .fail _ => .ok (maps, [moduleName])
            | .ok epModule epAttr =>
              match epModule, epAttr with
              | some em, some ea =>
                if em = "" || ea = "" then .ok (maps, [moduleName])
                else if cid.hashable then
                  .ok ((dictSet maps.1 cid (em, ea), dictSet maps.2 cid contract),
                       [moduleName])
                else .error "TypeError: unhashable type"
              | _, _ => .ok (maps, [moduleName])
      | _ => .error "AttributeError: object has no attribute get"

/-- The loop of `_discover` over the remaining children, threading the
maps and accumulating the import log. -/
def discoverGo (st : DiscoverState) : List PluginDir → Except String DiscoverState
  | [] => .ok st
  | p :: ps =>
    match discoverStep (st.registry, st.contracts) p with
    | .error m => .error m
    | .ok (maps, calls) =>
      discoverGo { registry := maps.1, contracts := maps.2,
                   importLog := st.importLog ++ calls } ps

/-- `_discover()`: scan the children of `capabilities/` (already in
sorted order) and build the registry and contracts maps. -/
def _discover (plugins : List PluginDir) : Except String DiscoverState :=
  discoverGo { registry := [], contracts := [], importLog := [] } plugins

/-- The plugin shapes `_discover` skips with `continue` (everything
short of a recorded entry, except the loads that raise): not a
directory, missing files, falsy/absent contract name, failed package
import, or absent/empty entry-point metadata. -/
def skipsCleanly (p : PluginDir) : Bool :=
  if !p.isDir then true
  else if !(p.hasContract && p.hasInit) then true
  else
    match p.contractDoc with
    | .error _ => false
    | .ok (.obj cfields) =>
      match lookupField cfields "name" with
      | none => true
      | some cid =>
        if !cid.truthy then true
        else
          (match p.importOutcome with
           | .fail _ => true
           | .ok (some em) (some ea) => em = "" || ea = ""
           | .ok _ _ => true)
    | .ok _ => false

/-- Forget the import log, keeping the maps a discovery run built. -/
def mapsOf : Except String DiscoverState → Except String Maps
  | .error m => .error m
  | .ok st => .ok (st.registry, st.contracts)

/-! ### Lazy resolution (`_make_lazy`) -/

/-- The type of a resolved entry-point callable. -/
abbrev ImplFun := List (String × Json) → Out Json

/-- What `importlib.import_module(mod_name)` + `getattr(impl, attr_name)`
would yield if attempted now; this can change between calls (e.g. a
dependency gets installed). -/
inductive ResolveOutcome where
  | ok (f : ImplFun)
  | importFail (message : String)
  | attrFail (message : String)

/-- One call of the `_lazy_call` closure: `resolved` is the `_resolved`
cell, the returned `Bool` records whether `importlib.import_module` was
called during this invocation.  The append to `_resolved` happens only
after both the import and the `getattr` succeed. -/
def lazyCall (resolve : ResolveOutcome) (resolved : Option ImplFun)
    (kwargs : List (String × Json)) : Out Json × Option ImplFun × Bool :=
  match resolved with
  | some f => (f kwargs, some f, false)
  | none =>
    match resolve with
    | .ok f => (f kwargs, some f, true)
    | .importFail m => (.exn m, none, true)
    | .attrFail m => (.exn m, none, true)

/-- A sequence of calls to one `_lazy_call` closure, threading the
`_resolved` cell; returns each call's result with its import flag, and
the final cell contents. -/
def runLazy (resolved : Option ImplFun) :
    List (ResolveOutcome × List (String × Json)) →
    List (Out Json × Bool) × Option ImplFun
  | [] => ([], resolved)
  | (r, kw) :: rest =>
    let step := lazyCall r resolved kw
    let restRun := runLazy step.2.1 rest
    ((step.1, step.2.2) :: restRun.1, restRun.2)

/-! ### `text.normalize_markdown`
(`src/capabilities/text_normalize_markdown/implementation.py`) -/

/-- Python `str.isspace` characters (the Unicode whitespace set). -/
def pyIsSpace (c : Char) : Bool :=
  c = ' ' || c = '\t' || c = '\n' || c = '\r' || c = '\x0b' || c = '\x0c' ||
  c = '\x1c' || c = '\x1d' || c = '\x1e' || c = '\x1f' || c = '\x85' ||
  c = '\xa0' || c = ' ' ||
  (0x2000 ≤ c.toNat && c.toNat ≤ 0x200a) ||
  c = ' ' || c = ' ' || c = ' ' || c = ' ' || c = '　'

/-- Line boundaries recognized by Python `str.splitlines`. -/
def isLineBreak (c : Char) : Bool :=
  c = '\n' || c = '\r' || c = '\x0b' || c = '\x0c' ||
  c = '\x1c' || c = '\x1d' || c = '\x1e' || c = '\x85' ||
  c = ' ' || c = ' '

/-- Accumulating worker for `splitlines`: `cur` holds the current line
reversed; `"\r\n"` counts as one boundary; a final line is emitted only
when non-empty past the last boundary. -/
def splitlinesAux (cur : List Char) : List Char → List (List Char)
  | [] => if cur.isEmpty then [] else [cur.reverse]
  | '\r' :: '\n' :: rest => cur.reverse :: splitlinesAux [] rest
  | c :: rest =>
    if isLineBreak c then cur.reverse :: splitlinesAux [] rest
    else splitlinesAux (c :: cur) rest

/-- Python `text.splitlines()`. -/
def pySplitlines (s : String) : List String :=
  (splitlinesAux [] s.toList).map fun cs => String.mk cs

/-- Python `line.rstrip()`: drop trailing whitespace. -/
def pyRstrip (s : String) : String :=
  String.mk ((s.toList.reverse.dropWhile pyIsSpace).reverse)

/-- `opts.get(key, True)` on the options dict (declared
`Dict[str, bool]`; `bool(...)` of a `bool` is itself). -/
def lookupBool (opts : List (String × Bool)) (k : String) (dflt : Bool) : Bool :=
  match opts with
  | [] => dflt
  | (k', v) :: rest => if k' = k then v else lookupBool rest k dflt

/-- `normalize_markdown(text, options)`: trim trailing whitespace per
line, then guarantee a final newline, recording each applied change.
A non-string `text` raises `NormalizeMarkdownError` (a plain
`Exception`); `options or {}` makes `None` and `{}` coincide. -/
def normalize_markdown (text : Json)
    (options : Option (List (String × Bool))) : Out Json :=
  match text with
  | .str s =>
    let opts := options.getD []
    let trimTrailing := lookupBool opts "trim_trailing_whitespace" true
    let ensureFinal := lookupBool opts "ensure_final_newline" true
    let afterTrim : String × List String :=
      if trimTrailing then
        let lines := pySplitlines s
        let trimmedLines := lines.map pyRstrip
        (String.intercalate "\n" trimmedLines,
         if trimmedLines ≠ lines then ["trim_trailing_whitespace"] else [])
      else (s, [])
    let afterNewline : String × List String :=
      if ensureFinal then
        if afterTrim.1 ≠ "" && !afterTrim.1.endsWith "\n" then
          (afterTrim.1 ++ "\n", afterTrim.2 ++ ["ensure_final_newline"])
        else if afterTrim.1 = "" then
          ("\n", afterTrim.2 ++ ["ensure_final_newline"])
        else afterTrim
      else afterTrim
    .val (.obj [("text", .str afterNewline.1),
                ("changes", .arr (afterNewline.2.map .str))])
  | _ => .exn "text must be a string"

/-! ### Lazy-resolution observations -/

/-- Whether an attempted resolution raised instead of producing the
callable. -/
def ResolveOutcome.isFailure : ResolveOutcome → Bool
  | .ok _ => false
  | .importFail _ => true
  | .attrFail _ => true

/-- The message of a failed resolution (unused for successes). -/
def ResolveOutcome.failureMessage : ResolveOutcome → String
  | .ok _ => ""
  | .importFail m => m
  | .attrFail m => m

/-! ### Concrete environments for witnesses and counterexamples -/

/-- A `jsonschema` stub whose validators build without fault and report
no violations. -/
def quietLib : SchemaLib := ⟨fun _ => none, fun _ _ => []⟩

/-- A registered implementation that returns an empty object. -/
def okImpl : String → List (String × Json) → Out Json := fun _ _ => .val (.obj [])

/-- A well-formed contract document with both schemas. -/
def sampleContract : Json :=
  .obj [("name", .str "cap.x"), ("description", .str "sample"),
        ("input_schema", .obj [("type", .str "object")]),
        ("output_schema", .obj [("type", .str "object")])]

/-- An environment whose one capability has a well-formed contract. -/
def baseEnv : Env :=
  { lib := quietLib, registry := ["cap.x"], impl := okImpl,
    loadContract := fun _ => .doc sampleContract }

/-- An environment whose contract file is absent on disk. -/
def missingContractEnv : Env :=
  { lib := quietLib, registry := ["cap.x"], impl := okImpl,
    loadContract := fun _ => .missing }

/-- An environment whose contract document lacks both schemas. -/
def schemalessContractEnv : Env :=
  { lib := quietLib, registry := ["cap.x"], impl := okImpl,
    loadContract := fun _ => .doc (.obj [("name", .str "cap.x")]) }

/-- A `jsonschema` stub reporting two violations in reverse path
order. -/
def twoErrLib : SchemaLib :=
  ⟨fun _ => none,
   fun _ _ => [⟨"later", [.str "b"], [.str "properties", .str "b"]⟩,
               ⟨"earlier", [.str "a"], [.str "properties", .str "a"]⟩]⟩

/-- Environment whose validator reports the two violations above. -/
def twoErrEnv : Env :=
  { lib := twoErrLib, registry := ["cap.x"], impl := okImpl,
    loadContract := fun _ => .doc sampleContract }

/-- Environment whose implementation raises a typed `DispatchError`. -/
def derrEnv : Env :=
  { lib := quietLib, registry := ["cap.x"],
    impl := fun _ _ => .derr "tool_missing" "binary not found" (.str "inkscape"),
    loadContract := fun _ => .doc sampleContract }

/-- Environment whose implementation raises a plain exception. -/
def exnEnv : Env :=
  { lib := quietLib, registry := ["cap.x"],
    impl := fun _ _ => .exn "boom",
    loadContract := fun _ => .doc sampleContract }

/-- An MCP contract set holding the sample contract. -/
def mcpContracts : List (String × Json) :=
  [("cap.x", sampleContract)]

/-- A plugin whose package import raises. -/
def brokenImportPlugin : PluginDir :=
  { dirName := "broken_plugin", isDir := true, hasContract := true,
    hasInit := true,
    contractDoc := .ok (.obj [("name", .str "broken.cap")]),
    importOutcome := .fail "No module named torch" }

/-- A healthy plugin. -/
def goodPlugin : PluginDir :=
  { dirName := "good_plugin", isDir := true, hasContract := true,
    hasInit := true,
    contractDoc := .ok (.obj [("name", .str "good.cap")]),
    importOutcome := .ok (some "capabilities.good_plugin.implementation")
      (some "run") }

/-! ### Order and sorting lemmas

`_validate` sorts the violations with Python's stable `sorted` keyed by
`list(e.path)`; these lemmas show the embedded sort is a permutation of
its input and leaves no inversion of the path order. -/

theorem Key.lt_irrefl (a : Key) : Key.lt a a = false := by
  cases a <;> simp [Key.lt]

theorem Key.lt_asymm {a b : Key} (h : Key.lt a b = true) : Key.lt b a = false := by
  cases a <;> cases b
  case idx.idx =>
    simp only [Key.lt, decide_eq_true_eq] at h
    simp only [Key.lt, decide_eq_false_iff_not]
    omega
  case idx.str => rfl
  case str.idx => exact absurd h (by simp [Key.lt])
  case str.str =>
    simp only [Key.lt, decide_eq_true_eq] at h
    simp only [Key.lt, decide_eq_false_iff_not]
    exact h.asymm

theorem Key.lt_trans {a b c : Key} (hab : Key.lt a b = true)
    (hbc : Key.lt b c = true) : Key.lt a c = true := by
  cases a <;> cases b <;> cases c
  case idx.idx.idx =>
    simp only [Key.lt, decide_eq_true_eq] at hab hbc ⊢
    omega
  case idx.idx.str => rfl
  case idx.str.idx => exact absurd hbc (by simp [Key.lt])
  case idx.str.str => rfl
  case str.idx.idx => exact absurd hab (by simp [Key.lt])
  case str.idx.str => exact absurd hab (by simp [Key.lt])
  case str.str.idx => exact absurd hbc (by simp [Key.lt])
  case str.str.str =>
    simp only [Key.lt, decide_eq_true_eq] at hab hbc ⊢
    exact hab.trans hbc

theorem pathLt_asymm : ∀ {x y : List Key}, pathLt x y = true → pathLt y x = false
  | [], [], h => by simp [pathLt] at h
  | [], _ :: _, _ => by simp [pathLt]
  | _ :: _, [], h => by simp [pathLt] at h
  | a :: as, b :: bs, h => by
    simp only [pathLt, Bool.or_eq_true, Bool.and_eq_true, decide_eq_true_eq] at h
    have hba : Key.lt b a = false := by
      rcases h with h | ⟨rfl, _⟩
      · exact Key.lt_asymm h
      · exact Key.lt_irrefl a
    have hrest : (decide (b = a) && pathLt bs as) = false := by
      rcases h with h | ⟨rfl, h1⟩
      · cases hb : decide (b = a)
        · simp
        · have : b = a := of_decide_eq_true hb
          subst this
          simp [Key.lt_irrefl] at h
      · simp [pathLt_asymm h1]
    simp [pathLt, hba, hrest]

theorem pathLt_trans : ∀ {x y z : List Key}, pathLt x y = true →
    pathLt y z = true → pathLt x z = true
  | [], [], _, h, _ => by simp [pathLt] at h
  | [], _ :: _, [], _, h => by simp [pathLt] at h
  | [], _ :: _, _ :: _, _, _ => by simp [pathLt]
  | _ :: _, [], _, h, _ => by simp [pathLt] at h
  | _ :: _, _ :: _, [], _, h => by simp [pathLt] at h
  | a :: as, b :: bs, c :: cs, hxy, hyz => by
    simp only [pathLt, Bool.or_eq_true, Bool.and_eq_true, decide_eq_true_eq] at hxy hyz ⊢
    rcases hxy with h1 | ⟨rfl, h1⟩
    · rcases hyz with h2 | ⟨rfl, h2⟩
      · exact Or.inl (Key.lt_trans h1 h2)
      · exact Or.inl h1
    · rcases hyz with h2 | ⟨rfl, h2⟩
      · exact Or.inl h2
      · exact Or.inr ⟨rfl, pathLt_trans h1 h2⟩

theorem errLt_asymm {a b : VError} (h : errLt a b = true) : errLt b a = false :=
  pathLt_asymm h

theorem errLt_trans {a b c : VError} (hab : errLt a b = true)
    (hbc : errLt b c = true) : errLt a c = true :=
  pathLt_trans hab hbc

theorem insertByLt_perm {α : Type} (lt : α → α → Bool) (x : α) :
    ∀ l : List α, (insertByLt lt x l).Perm (x :: l)
  | [] => List.Perm.refl _
  | y :: ys => by
    by_cases h : lt x y = true
    · simp only [insertByLt, h, if_true]
      exact List.Perm.refl _
    · simp only [insertByLt, h, if_false]
      exact ((insertByLt_perm lt x ys).cons y).trans (List.Perm.swap x y ys)

theorem sortAux_perm {α : Type} (lt : α → α → Bool) :
    ∀ (l acc : List α), (sortAux lt acc l).Perm (acc ++ l)
  | [], acc => by simp only [sortAux, List.append_nil]; exact List.Perm.refl acc
  | x :: xs, acc => by
    simp only [sortAux]
    exact (sortAux_perm lt xs (insertByLt lt x acc)).trans
      ((((insertByLt_perm lt x acc).append_right xs)).trans List.perm_middle.symm)

theorem sortByPath_perm (errs : List VError) : (sortByPath errs).Perm errs := by
  simpa using sortAux_perm errLt errs []

theorem mem_insertByLt {α : Type} {lt : α → α → Bool} {x z : α} {l : List α}
    (h : z ∈ insertByLt lt x l) : z = x ∨ z ∈ l :=
  by simpa using (insertByLt_perm lt x l).mem_iff.mp h

theorem insertByLt_sorted (x : VError) :
    ∀ {l : List VError}, l.Pairwise (fun a b => errLt b a = false) →
    (insertByLt errLt x l).Pairwise (fun a b => errLt b a = false)
  | [], _ => by simp [insertByLt]
  | y :: ys, hs => by
    rcases List.pairwise_cons.mp hs with ⟨hy, hys⟩
    by_cases h : errLt x y = true
    · simp only [insertByLt, h, if_pos]
      refine List.pairwise_cons.mpr ⟨?_, hs⟩
      intro z hz
      rcases List.mem_cons.mp hz with rfl | hz
      · exact errLt_asymm h
      · by_contra hzx
        have hzx' : errLt z x = true := by
          revert hzx; cases errLt z x <;> simp
        have : errLt z y = true := errLt_trans hzx' h
        have := hy z hz
        simp_all
    · simp only [insertByLt, h, if_neg, Bool.not_eq_true]
      refine List.pairwise_cons.mpr ⟨?_, insertByLt_sorted x hys⟩
      intro z hz
      rcases mem_insertByLt hz with rfl | hz
      · revert h; cases errLt z y <;> simp
      · exact hy z hz

theorem sortAux_sorted :
    ∀ (l acc : List VError), acc.Pairwise (fun a b => errLt b a = false) →
    (sortAux errLt acc l).Pairwise (fun a b => errLt b a = false)
  | [], _, h => h
  | x :: xs, _, h => sortAux_sorted xs _ (insertByLt_sorted x h)

/-- The details list `_validate` raises is free of path inversions. -/
theorem sortByPath_sorted (errs : List VError) :
    (sortByPath errs).Pairwise (fun a b => errLt b a = false) :=
  sortAux_sorted errs [] (List.Pairwise.nil)

/-! ### Claim theorems -/

/-- C1. For every capability id and payload, `dispatch` returns an
envelope in which exactly one of `result`/`error` is present, `result`
is present iff `ok` is `true`, and `ok` is always a boolean — and since
the embedded `dispatch` is a total function over every environment
(including malformed contract documents, schema-check faults and
implementations that raise), every execution path terminates in such an
envelope and no fault escapes. -/
theorem dispatch_envelope_invariant (env : Env) (id : String) (payload : Json) :
    ((dispatch env id payload).hasKey "result"
      = !(dispatch env id payload).hasKey "error")
    ∧ ((dispatch env id payload).hasKey "result" = true ↔
        (dispatch env id payload).get? "ok" = some (.bool true))
    ∧ ((dispatch env id payload).get? "ok" = some (.bool true)
       ∨ (dispatch env id payload).get? "ok" = some (.bool false)) := by
  unfold dispatch
  by_cases h : id ∈ env.registry
  · rw [if_pos h]
    cases dispatchBody env id payload <;>
      simp [Json.hasKey, Json.get?, lookupField]
  · rw [if_neg h]
    simp [Json.hasKey, Json.get?, lookupField]

/-- C2 counterexample. With a registered id whose contract file is
absent, `dispatch` reports `error.type = "contract_not_found"`, not
`"contract_invalid"` as the claim states. -/
theorem missing_contract_counterexample :
    dispatch missingContractEnv "cap.x" (.obj []) =
      .obj [("ok", .bool false),
            ("error", .obj [("type", .str "contract_not_found"),
                            ("message", .str "contract not found: cap.x.v1.json"),
                            ("details", .null)])]
    ∧ ("contract_not_found" : String) ≠ "contract_invalid" :=
  ⟨rfl, by decide⟩

/-- C2 amended. For a registered id, a contract file that cannot be
found yields `ok=false` with `error.type = "contract_not_found"`, while
a loaded contract document whose `input_schema` or `output_schema` is
absent or empty (falsy) yields `ok=false` with
`error.type = "contract_invalid"`. -/
theorem contract_error_taxonomy (env : Env) (id : String) (payload : Json)
    (hreg : id ∈ env.registry) :
    (env.loadContract id = .missing →
      dispatch env id payload =
        .obj [("ok", .bool false),
              ("error", .obj [("type", .str "contract_not_found"),
                              ("message", .str ("contract not found: " ++ id ++ ".v1.json")),
                              ("details", .null)])])
    ∧ (∀ fields, env.loadContract id = .doc (.obj fields) →
        (optTruthy (lookupField fields "input_schema") = false
         ∨ optTruthy (lookupField fields "output_schema") = false) →
        dispatch env id payload =
          .obj [("ok", .bool false),
                ("error", .obj [("type", .str "contract_invalid"),
                                ("message", .str "contract missing input/output schema"),
                                ("details", .null)])]) := by
  constructor
  · intro hmiss
    unfold dispatch dispatchBody
    rw [if_pos hreg, hmiss]
  · intro fields hdoc hfalsy
    unfold dispatch dispatchBody
    rw [if_pos hreg, hdoc]
    have : (!optTruthy (lookupField fields "input_schema")
            || !optTruthy (lookupField fields "output_schema")) = true := by
      rcases hfalsy with h | h <;> simp [h]
    simp only [this, if_true]

/-- C2 witness: both amended branches at concrete environments. -/
theorem contract_error_taxonomy_witness :
    (dispatch missingContractEnv "cap.x" (.obj [("a", .num 1)]) =
      .obj [("ok", .bool false),
            ("error", .obj [("type", .str "contract_not_found"),
                            ("message", .str "contract not found: cap.x.v1.json"),
                            ("details", .null)])])
    ∧ (dispatch schemalessContractEnv "cap.x" (.obj []) =
      .obj [("ok", .bool false),
            ("error", .obj [("type", .str "contract_invalid"),
                            ("message", .str "contract missing input/output schema"),
                            ("details", .null)])]) :=
  ⟨(contract_error_taxonomy missingContractEnv "cap.x" (.obj [("a", .num 1)])
      (by decide)).1 rfl,
   (contract_error_taxonomy schemalessContractEnv "cap.x" (.obj [])
      (by decide)).2 [("name", .str "cap.x")] rfl (by decide)⟩

theorem sortByPath_nil : sortByPath [] = [] := rfl

/-- When the contract loads with both schemas truthy and the input
validator is built without fault, `dispatchBody` reduces to validation
followed by invocation. -/
theorem dispatchBody_valid_contract (env : Env) (id : String) (payload : Json)
    (fields : List (String × Json)) (ischema : Json)
    (hdoc : env.loadContract id = .doc (.obj fields))
    (hin : lookupField fields "input_schema" = some ischema)
    (hitruthy : ischema.truthy = true)
    (hout : optTruthy (lookupField fields "output_schema") = true)
    (hchk : env.lib.checkSchema ischema = none) :
    dispatchBody env id payload =
      (let errs := sortByPath (env.lib.iterErrors ischema payload)
       if errs.isEmpty then
         match invokeImpl env id payload with
         | .val result =>
           (match lookupField fields "output_schema" with
            | some oschema =>
              (match _validate env.lib oschema result "output_validation_error" with
               | .derr c m d => .derr c m d
               | .exn m => .exn m
               | .val () => .val result)
            | none => .exn "unreachable: output schema was truthy")
         | .derr c m d => .derr c m d
         | .exn m => .exn m
       else .derr "validation_error" "schema validation failed"
         (.arr (errs.map _format_validation_error))) := by
  unfold dispatchBody
  rw [hdoc]
  simp only [hin, hout]
  simp only [optTruthy, hitruthy, Bool.not_true, Bool.or_self, Bool.or_false,
    Bool.false_or, if_false, _validate, hchk]
  cases h : (sortByPath (env.lib.iterErrors ischema payload)).isEmpty <;>
    simp [h]
  cases invokeImpl env id payload <;> rfl

/-- On a validation failure `dispatch` returns the claim's envelope. -/
theorem dispatch_validation_fail (env : Env) (id : String) (payload : Json)
    (fields : List (String × Json)) (ischema : Json)
    (hreg : id ∈ env.registry)
    (hdoc : env.loadContract id = .doc (.obj fields))
    (hin : lookupField fields "input_schema" = some ischema)
    (hitruthy : ischema.truthy = true)
    (hout : optTruthy (lookupField fields "output_schema") = true)
    (hchk : env.lib.checkSchema ischema = none)
    (hne : env.lib.iterErrors ischema payload ≠ []) :
    dispatch env id payload =
      .obj [("ok", .bool false),
            ("error", .obj [("type", .str "validation_error"),
                            ("message", .str "schema validation failed"),
                            ("details", .arr ((sortByPath (env.lib.iterErrors ischema payload)).map
                                _format_validation_error))])] := by
  have hemp : (sortByPath (env.lib.iterErrors ischema payload)).isEmpty = false := by
    cases hs : sortByPath (env.lib.iterErrors ischema payload) with
    | nil =>
      have := sortByPath_perm (env.lib.iterErrors ischema payload)
      rw [hs] at this
      exact absurd this.symm.eq_nil hne
    | cons a l => rfl
  unfold dispatch
  rw [if_pos hreg,
    dispatchBody_valid_contract env id payload fields ischema hdoc hin hitruthy hout hchk]
  simp only [hemp, if_false, Bool.false_eq_true]

/-- C3. With a valid contract, any payload whose validation yields at
least one violation makes `dispatch` return `ok=false`,
`error.type = "validation_error"`, message `"schema validation failed"`,
and as details every violation (a permutation of the validator's
output), each reduced to `{message, path, schema_path}` and listed with
no inversion of the path order; the registered implementation is never
invoked (the envelope is the same whatever the implementations do). -/
theorem validation_error_details (env : Env) (id : String) (payload : Json)
    (fields : List (String × Json)) (ischema : Json)
    (hreg : id ∈ env.registry)
    (hdoc : env.loadContract id = .doc (.obj fields))
    (hin : lookupField fields "input_schema" = some ischema)
    (hitruthy : ischema.truthy = true)
    (hout : optTruthy (lookupField fields "output_schema") = true)
    (hchk : env.lib.checkSchema ischema = none)
    (hne : env.lib.iterErrors ischema payload ≠ []) :
    (dispatch env id payload =
      .obj [("ok", .bool false),
            ("error", .obj [("type", .str "validation_error"),
                            ("message", .str "schema validation failed"),
                            ("details", .arr ((sortByPath (env.lib.iterErrors ischema payload)).map
                                _format_validation_error))])])
    ∧ (sortByPath (env.lib.iterErrors ischema payload)).Perm
        (env.lib.iterErrors ischema payload)
    ∧ (sortByPath (env.lib.iterErrors ischema payload)).Pairwise
        (fun a b => errLt b a = false)
    ∧ (∀ impl', dispatch { env with impl := impl' } id payload
         = dispatch env id payload) := by
  refine ⟨dispatch_validation_fail env id payload fields ischema
      hreg hdoc hin hitruthy hout hchk hne,
    sortByPath_perm _, sortByPath_sorted _, ?_⟩
  intro impl'
  rw [dispatch_validation_fail env id payload fields ischema
      hreg hdoc hin hitruthy hout hchk hne,
    dispatch_validation_fail { env with impl := impl' } id payload fields ischema
      hreg hdoc hin hitruthy hout hchk hne]

/-- C3 witness: a concrete validation failure with two violations,
reported sorted by path. -/
theorem validation_error_details_witness :
    (twoErrEnv.lib.iterErrors (.obj [("type", .str "object")]) (.obj []) ≠ [])
    ∧ (dispatch twoErrEnv "cap.x" (.obj []) =
      .obj [("ok", .bool false),
            ("error", .obj [("type", .str "validation_error"),
                            ("message", .str "schema validation failed"),
                            ("details", .arr ((sortByPath (twoErrEnv.lib.iterErrors
                                (.obj [("type", .str "object")]) (.obj []))).map
                                _format_validation_error))])]) :=
  ⟨by decide,
   (validation_error_details twoErrEnv "cap.x" (.obj [])
      [("name", .str "cap.x"), ("description", .str "sample"),
       ("input_schema", .obj [("type", .str "object")]),
       ("output_schema", .obj [("type", .str "object")])]
      (.obj [("type", .str "object")])
      (by decide) rfl rfl (by decide) (by decide) rfl (by decide)).1⟩

/-- C4. When the invoked implementation raises the dispatcher's typed
`DispatchError(code, message, details)`, `dispatch` propagates those
three fields verbatim as the error object; when it raises any other
exception, `dispatch` reports `error.type = "capability_error"` with
`str(exception)` as the message — no other exception class alters the
error taxonomy. -/
theorem implementation_error_propagation (env : Env) (id : String)
    (kwargs fields : List (String × Json)) (ischema : Json)
    (hreg : id ∈ env.registry)
    (hdoc : env.loadContract id = .doc (.obj fields))
    (hin : lookupField fields "input_schema" = some ischema)
    (hitruthy : ischema.truthy = true)
    (hout : optTruthy (lookupField fields "output_schema") = true)
    (hchk : env.lib.checkSchema ischema = none)
    (hval : env.lib.iterErrors ischema (.obj kwargs) = []) :
    (∀ code msg details, env.impl id kwargs = .derr code msg details →
      dispatch env id (.obj kwargs) =
        .obj [("ok", .bool false),
              ("error", .obj [("type", .str code), ("message", .str msg),
                              ("details", details)])])
    ∧ (∀ msg, env.impl id kwargs = .exn msg →
      dispatch env id (.obj kwargs) =
        .obj [("ok", .bool false),
              ("error", .obj [("type", .str "capability_error"),
                              ("message", .str msg)])]) := by
  have hbody := dispatchBody_valid_contract env id (.obj kwargs) fields ischema
    hdoc hin hitruthy hout hchk
  rw [hval, sortByPath_nil] at hbody
  simp only [List.isEmpty_nil, if_true] at hbody
  constructor
  · intro code msg details himpl
    unfold dispatch
    rw [if_pos hreg, hbody]
    simp only [invokeImpl, himpl]
  · intro msg himpl
    unfold dispatch
    rw [if_pos hreg, hbody]
    simp only [invokeImpl, himpl]

/-- C4 witness: both propagation branches at concrete environments. -/
theorem implementation_error_propagation_witness :
    (dispatch derrEnv "cap.x" (.obj []) =
      .obj [("ok", .bool false),
            ("error", .obj [("type", .str "tool_missing"),
                            ("message", .str "binary not found"),
                            ("details", .str "inkscape")])])
    ∧ (dispatch exnEnv "cap.x" (.obj []) =
      .obj [("ok", .bool false),
            ("error", .obj [("type", .str "capability_error"),
                            ("message", .str "boom")])]) :=
  ⟨(implementation_error_propagation derrEnv "cap.x" [] _ (.obj [("type", .str "object")])
      (by decide) rfl rfl (by decide) (by decide) rfl rfl).1
    "tool_missing" "binary not found" (.str "inkscape") rfl,
   (implementation_error_propagation exnEnv "cap.x" [] _ (.obj [("type", .str "object")])
      (by decide) rfl rfl (by decide) (by decide) rfl rfl).2 "boom" rfl⟩

/-- C10. `normalize_markdown("")` with no options returns
`{"text": "\n", "changes": ["ensure_final_newline"]}`: the empty input
becomes a single newline, that change is recorded, and
`trim_trailing_whitespace` is not. -/
theorem normalize_markdown_empty :
    normalize_markdown (.str "") none =
      .val (.obj [("text", .str "\n"),
                  ("changes", .arr [.str "ensure_final_newline"])]) := rfl

/-- C7. For every contract document carrying a `name` and an object
`input_schema`, the generated tool-call descriptor is exactly
`{type: "function", function: {name, description (defaulting to ""),
parameters: input_schema minus the "$schema" key, nothing else
changed}}`; `generate_tool` is a pure function of the contract, so two
generations coincide. -/
theorem tool_descriptor_shape (fields sfields : List (String × Json)) (name : Json)
    (hname : lookupField fields "name" = some name)
    (hschema : lookupField fields "input_schema" = some (.obj sfields)) :
    (generate_tool (.obj fields) =
      .val (.obj [("type", .str "function"),
                  ("function", .obj [("name", name),
                                     ("description", (lookupField fields "description").getD (.str "")),
                                     ("parameters", .obj (sfields.filter
                                        (fun kv => kv.1 ≠ "$schema")))])]))
    ∧ generate_tool (.obj fields) = generate_tool (.obj fields) := by
  refine ⟨?_, rfl⟩
  simp only [generate_tool, _strip_schema, hname, hschema, Option.getD_some]

/-- C7 witness: a concrete contract with a `$schema` marker in its
input schema. -/
theorem tool_descriptor_shape_witness :
    generate_tool (.obj [("name", .str "text.normalize_markdown"),
                         ("description", .str "Normalize Markdown text"),
                         ("input_schema", .obj [("$schema", .str "https://json-schema.org/draft-07/schema"),
                                                ("type", .str "object")])]) =
      .val (.obj [("type", .str "function"),
                  ("function", .obj [("name", .str "text.normalize_markdown"),
                                     ("description", .str "Normalize Markdown text"),
                                     ("parameters", .obj [("type", .str "object")])])]) :=
  (tool_descriptor_shape
    [("name", .str "text.normalize_markdown"),
     ("description", .str "Normalize Markdown text"),
     ("input_schema", .obj [("$schema", .str "https://json-schema.org/draft-07/schema"),
                            ("type", .str "object")])]
    [("$schema", .str "https://json-schema.org/draft-07/schema"),
     ("type", .str "object")]
    (.str "text.normalize_markdown") rfl rfl).1

/-- C8. For a tool name other than `toolbox.list_capabilities` that is
present in the MCP server's contract set (and registered with the
dispatcher) and arguments that its input schema validates cleanly, the
MCP adapter's `call_tool` returns exactly the envelope `dispatch`
returns. -/
theorem mcp_call_matches_dispatch (contracts : List (String × Json)) (env : Env)
    (name : String) (arguments : Json) (cfields : List (String × Json))
    (hmeta : name ≠ "toolbox.list_capabilities")
    (hfound : lookupField contracts name = some (.obj cfields))
    (hnonempty : cfields ≠ [])
    (_hreg : name ∈ env.registry)
    (hchk : env.lib.checkSchema ((lookupField cfields "input_schema").getD (.obj [])) = none)
    (hok : env.lib.iterErrors ((lookupField cfields "input_schema").getD (.obj []))
        arguments = []) :
    call_tool contracts env name arguments = .ok (dispatch env name arguments) := by
  have htruthy : optTruthy (some (Json.obj cfields)) = true := by
    simp [optTruthy, Json.truthy, hnonempty]
  unfold call_tool
  rw [if_neg hmeta, hfound]
  simp only [htruthy, Bool.not_true, mcpValidate, hchk, hok, sortByPath_nil,
    List.map_nil, Bool.false_eq_true, if_false]

/-- C8 witness: a concrete valid call goes through `dispatch` and the
two transports agree. -/
theorem mcp_call_matches_dispatch_witness :
    call_tool mcpContracts baseEnv "cap.x" (.obj []) =
      .ok (dispatch baseEnv "cap.x" (.obj [])) :=
  mcp_call_matches_dispatch mcpContracts baseEnv "cap.x" (.obj [])
    [("name", .str "cap.x"), ("description", .str "sample"),
     ("input_schema", .obj [("type", .str "object")]),
     ("output_schema", .obj [("type", .str "object")])]
    (by decide) rfl (by simp) (by decide) rfl rfl

/-! ### Discovery lemmas -/

theorem dictSet_keys_congr {α β : Type} (k : Json) (v : α) (w : β) :
    ∀ (m1 : List (Json × α)) (m2 : List (Json × β)),
    m1.map Prod.fst = m2.map Prod.fst →
    (dictSet m1 k v).map Prod.fst = (dictSet m2 k w).map Prod.fst
  | [], [], _ => rfl
  | [], (_, _) :: _, h => by simp at h
  | (_, _) :: _, [], h => by simp at h
  | (k1, v1) :: r1, (k2, v2) :: r2, h => by
    simp only [List.map_cons, List.cons.injEq] at h
    obtain ⟨rfl, hr⟩ := h
    unfold dictSet
    by_cases hp : pyEq k1 k = true
    · simp [hp, hr]
    · simp [hp, dictSet_keys_congr k v w r1 r2 hr]

/-- A discovery step keeps the registry's and the contracts map's key
sequences identical: both are extended (or overwritten) with the same
capability id together. -/
theorem discoverStep_keys (maps maps' : Maps) (calls : List String)
    (p : PluginDir) (h : discoverStep maps p = .ok (maps', calls))
    (hk : maps.1.map Prod.fst = maps.2.map Prod.fst) :
    maps'.1.map Prod.fst = maps'.2.map Prod.fst := by
  unfold discoverStep at h
  repeat' split at h
  all_goals cases h
  all_goals first
    | exact hk
    | exact dictSet_keys_congr _ _ _ _ _ hk

/-- A discovery step emits at most the one package import
`capabilities.<dirname>`. -/
theorem discoverStep_calls (maps maps' : Maps) (calls : List String)
    (p : PluginDir) (h : discoverStep maps p = .ok (maps', calls)) :
    calls = [] ∨ calls = ["capabilities." ++ p.dirName] := by
  unfold discoverStep at h
  repeat' split at h
  all_goals cases h
  all_goals simp

theorem discoverGo_keys : ∀ (ps : List PluginDir) (st st' : DiscoverState),
    discoverGo st ps = .ok st' →
    st.registry.map Prod.fst = st.contracts.map Prod.fst →
    st'.registry.map Prod.fst = st'.contracts.map Prod.fst
  | [], _, _, h, hk => by
    cases h
    exact hk
  | p :: ps, st, st', h, hk => by
    unfold discoverGo at h
    cases hs : discoverStep (st.registry, st.contracts) p with
    | error m => rw [hs] at h; cases h
    | ok pair =>
      rw [hs] at h
      exact discoverGo_keys ps _ st' h
        (discoverStep_keys _ _ pair.2 p (by rw [hs]) hk)

theorem discoverGo_log : ∀ (ps : List PluginDir) (st st' : DiscoverState),
    discoverGo st ps = .ok st' →
    ∀ m ∈ st'.importLog,
      m ∈ st.importLog ∨ ∃ p ∈ ps, m = "capabilities." ++ p.dirName
  | [], _, _, h, m, hm => by
    cases h
    exact Or.inl hm
  | p :: ps, st, st', h, m, hm => by
    unfold discoverGo at h
    cases hs : discoverStep (st.registry, st.contracts) p with
    | error msg => rw [hs] at h; cases h
    | ok pair =>
      rw [hs] at h
      rcases discoverGo_log ps _ st' h m hm with hin | ⟨q, hq, rfl⟩
      · simp only [List.mem_append] at hin
        rcases hin with hin | hin
        · exact Or.inl hin
        · rcases discoverStep_calls _ _ pair.2 p (by rw [hs]) with hc | hc
          · rw [hc] at hin
            simp at hin
          · rw [hc] at hin
            simp only [List.mem_singleton] at hin
            exact Or.inr ⟨p, List.mem_cons_self p ps, hin⟩
      · exact Or.inr ⟨q, List.mem_cons_of_mem p hq, rfl⟩

/-- A cleanly-skipped plugin leaves the maps unchanged. -/
theorem discoverStep_skip (p : PluginDir) (h : skipsCleanly p = true)
    (maps : Maps) : ∃ calls, discoverStep maps p = .ok (maps, calls) := by
  unfold skipsCleanly at h
  unfold discoverStep
  repeat' split at h
  all_goals simp_all

/-- Runs from states with the same maps build the same maps. -/
theorem discoverGo_maps_congr : ∀ (ps : List PluginDir) (st st' : DiscoverState),
    st.registry = st'.registry → st.contracts = st'.contracts →
    mapsOf (discoverGo st ps) = mapsOf (discoverGo st' ps)
  | [], st, st', hr, hc => by simp [discoverGo, mapsOf, hr, hc]
  | p :: ps, st, st', hr, hc => by
    unfold discoverGo
    rw [hr, hc]
    cases discoverStep (st'.registry, st'.contracts) p with
    | error m => rfl
    | ok pair => exact discoverGo_maps_congr ps _ _ rfl rfl

theorem discoverGo_skip_isolation (p : PluginDir) (h : skipsCleanly p = true)
    (l2 : List PluginDir) :
    ∀ (l1 : List PluginDir) (st : DiscoverState),
    mapsOf (discoverGo st (l1 ++ p :: l2)) = mapsOf (discoverGo st (l1 ++ l2))
  | [], st => by
    obtain ⟨calls, hc⟩ := discoverStep_skip p h (st.registry, st.contracts)
    simp only [List.nil_append]
    conv_lhs => rw [discoverGo]
    rw [hc]
    exact discoverGo_maps_congr l2 _ st rfl rfl
  | q :: l1, st => by
    simp only [List.cons_append]
    unfold discoverGo
    cases discoverStep (st.registry, st.contracts) q with
    | error m => rfl
    | ok pair => exact discoverGo_skip_isolation p h l2 l1 _

/-! ### Discovery and lazy-resolution claim theorems -/

/-- C6 counterexample.  A plugin whose `contract.v1.json` is malformed
JSON aborts the whole discovery run (`json.load` has no try/except), so
a later well-formed plugin is registered in neither map — discovery of
the others is aborted, not skipped.  The second conjunct shows the same
good plugin alone discovers fine. -/
theorem discovery_abort_counterexample :
    _discover
      [{ dirName := "bad_plugin", isDir := true, hasContract := true,
         hasInit := true,
         contractDoc := .error "Expecting value: line 1 column 1 (char 0)",
         importOutcome := .ok none none },
       { dirName := "good_plugin", isDir := true, hasContract := true,
         hasInit := true,
         contractDoc := .ok (.obj [("name", .str "good.cap")]),
         importOutcome := .ok (some "capabilities.good_plugin.implementation")
           (some "run") }]
      = .error "Expecting value: line 1 column 1 (char 0)"
    ∧ _discover
      [{ dirName := "good_plugin", isDir := true, hasContract := true,
         hasInit := true,
         contractDoc := .ok (.obj [("name", .str "good.cap")]),
         importOutcome := .ok (some "capabilities.good_plugin.implementation")
           (some "run") }]
      = .ok { registry := [(.str "good.cap",
                ("capabilities.good_plugin.implementation", "run"))],
              contracts := [(.str "good.cap", .obj [("name", .str "good.cap")])],
              importLog := ["capabilities.good_plugin"] } :=
  ⟨rfl, rfl⟩

/-- C6 amended.  When discovery completes, the registry and contracts
maps carry exactly the same keys (in the same order); and a plugin that
is skipped by `continue` — not a directory, missing `contract.v1.json`
or `__init__.py`, falsy contract name, failed package import, or
absent/empty entry-point metadata — leaves the maps built from the
other plugins unchanged.  (A contract file whose JSON is malformed or
not an object, or a truthy unhashable `name`, instead raises and aborts
the whole run, contrary to the original claim.) -/
theorem discovery_map_invariants :
    (∀ (plugins : List PluginDir) (st : DiscoverState),
       _discover plugins = .ok st →
       st.registry.map Prod.fst = st.contracts.map Prod.fst)
    ∧ (∀ (p : PluginDir) (l1 l2 : List PluginDir), skipsCleanly p = true →
       mapsOf (_discover (l1 ++ p :: l2)) = mapsOf (_discover (l1 ++ l2))) :=
  ⟨fun plugins st h => discoverGo_keys plugins _ st h rfl,
   fun p l1 _ h => discoverGo_skip_isolation p h _ l1 _⟩

/-- C6 witness: key alignment for a completed run; a plugin with a
failing package import is skipped without affecting the good plugin. -/
theorem discovery_map_invariants_witness :
    (DiscoverState.registry
        { registry := [(.str "good.cap",
            ("capabilities.good_plugin.implementation", "run"))],
          contracts := [(.str "good.cap", .obj [("name", .str "good.cap")])],
          importLog := ["capabilities.broken_plugin",
                        "capabilities.good_plugin"] }).map Prod.fst
      = (DiscoverState.contracts
        { registry := [(.str "good.cap",
            ("capabilities.good_plugin.implementation", "run"))],
          contracts := [(.str "good.cap", .obj [("name", .str "good.cap")])],
          importLog := ["capabilities.broken_plugin",
                        "capabilities.good_plugin"] }).map Prod.fst
    ∧ mapsOf (_discover [brokenImportPlugin, goodPlugin])
      = mapsOf (_discover [goodPlugin]) :=
  ⟨discovery_map_invariants.1 [brokenImportPlugin, goodPlugin]
      { registry := [(.str "good.cap",
          ("capabilities.good_plugin.implementation", "run"))],
        contracts := [(.str "good.cap", .obj [("name", .str "good.cap")])],
        importLog := ["capabilities.broken_plugin",
                      "capabilities.good_plugin"] } rfl,
   discovery_map_invariants.2 brokenImportPlugin [] [goodPlugin] rfl⟩

/-- C5.  Discovery only ever imports the plugin package modules
`capabilities.<dirname>` — never a module whose name differs from every
package name, such as the recorded entry-point targets
`capabilities.<dirname>.implementation`; the first call of a lazy
binding performs the import and memoizes the resolved callable; and
once the `_resolved` cell is filled, every later call reuses the cached
callable and performs no import or resolution at all. -/
theorem lazy_import_discipline :
    (∀ (plugins : List PluginDir) (st : DiscoverState) (epm : String),
       _discover plugins = .ok st →
       (∀ p ∈ plugins, epm ≠ "capabilities." ++ p.dirName) →
       epm ∉ st.importLog)
    ∧ (∀ (f : ImplFun) (kwargs : List (String × Json)),
       lazyCall (.ok f) none kwargs = (f kwargs, some f, true))
    ∧ (∀ (f : ImplFun) (calls : List (ResolveOutcome × List (String × Json))),
       runLazy (some f) calls = (calls.map (fun c => (f c.2, false)), some f)) := by
  refine ⟨?_, fun f kwargs => rfl, ?_⟩
  · intro plugins st epm hdisc hne hmem
    rcases discoverGo_log plugins _ st hdisc epm hmem with hin | ⟨p, hp, rfl⟩
    · simp at hin
    · exact hne p hp rfl
  · intro f calls
    induction calls with
    | nil => rfl
    | cons c rest ih =>
      obtain ⟨r, kw⟩ := c
      simp [runLazy, lazyCall, ih]

/-- C5 witness: a concrete discovery whose entry-point module is never
imported during discovery, plus first-call resolution and cached reuse. -/
theorem lazy_import_discipline_witness :
    ("capabilities.good_plugin.implementation"
      ∉ (DiscoverState.importLog
          { registry := [(.str "good.cap",
              ("capabilities.good_plugin.implementation", "run"))],
            contracts := [(.str "good.cap", .obj [("name", .str "good.cap")])],
            importLog := ["capabilities.good_plugin"] }))
    ∧ lazyCall (.ok (fun _ => .val .null)) none []
        = (.val .null, some (fun _ => .val .null), true)
    ∧ runLazy (some (fun _ => .val .null))
        [(.importFail "gone", []), (.ok (fun _ => .val (.num 7)), [])]
        = ([(.val .null, false), (.val .null, false)],
           some (fun _ => .val .null)) :=
  ⟨lazy_import_discipline.1 [goodPlugin] _ "capabilities.good_plugin.implementation"
      rfl (by
        intro p hp
        simp only [List.mem_singleton] at hp
        subst hp
        decide),
   lazy_import_discipline.2.1 (fun _ => .val .null) [],
   lazy_import_discipline.2.2 (fun _ => .val .null)
     [(.importFail "gone", []), (.ok (fun _ => .val (.num 7)), [])]⟩

/-- C9.  A failed resolution appends nothing to `_resolved`: after any
sequence of calls whose import or attribute lookup raises, the cell is
still empty and each call attempted the import afresh (so nothing is
cached as a permanent failure), and the next call under a world where
the import succeeds resolves and runs the implementation. -/
theorem resolution_failure_not_cached :
    (∀ calls : List (ResolveOutcome × List (String × Json)),
       (∀ c ∈ calls, ResolveOutcome.isFailure c.1 = true) →
       runLazy none calls =
         (calls.map (fun c => (.exn (ResolveOutcome.failureMessage c.1), true)),
          none))
    ∧ (∀ (f : ImplFun) (kwargs : List (String × Json)),
       lazyCall (.ok f) none kwargs = (f kwargs, some f, true)) := by
  refine ⟨?_, fun f kwargs => rfl⟩
  intro calls hfail
  induction calls with
  | nil => rfl
  | cons c rest ih =>
    obtain ⟨r, kw⟩ := c
    have hr := hfail (r, kw) (List.mem_cons_self _ _)
    have hrest := ih (fun c hc => hfail c (List.mem_cons_of_mem _ hc))
    cases r with
    | ok f => simp [ResolveOutcome.isFailure] at hr
    | importFail m => simp [runLazy, lazyCall, hrest, ResolveOutcome.failureMessage]
    | attrFail m => simp [runLazy, lazyCall, hrest, ResolveOutcome.failureMessage]

/-- C9 witness: two failing calls cache nothing; a third call under a
repaired world succeeds. -/
theorem resolution_failure_not_cached_witness :
    runLazy none [(.importFail "No module named torch", []),
                  (.attrFail "module has no attribute run", [])]
      = ([(.exn "No module named torch", true),
          (.exn "module has no attribute run", true)], none)
    ∧ lazyCall (.ok (fun _ => .val (.str "resolved"))) none []
      = (.val (.str "resolved"), some (fun _ => .val (.str "resolved")), true) :=
  ⟨resolution_failure_not_cached.1
      [(.importFail "No module named torch", []),
       (.attrFail "module has no attribute run", [])]
      (by
        intro c hc
        rcases List.mem_cons.mp hc with rfl | hc
        · rfl
        · rcases List.mem_cons.mp hc with rfl | hc
          · rfl
          · simp at hc),
   resolution_failure_not_cached.2 (fun _ => .val (.str "resolved")) []⟩

end Toolbox
